import Mathlib

/-!
Verification development for the TripSignal backend core:
the notification outbox state machine and its two channel workers
(`app/workers/notifications_email_worker.py`,
`app/workers/notifications_log_worker.py`), the match recorder
(`app/api/routes/deal_matches.py`), the price-trend view, the signal
matcher and the deal upsert engine (`app/workers/selloff_scraper.py`).

Timestamps are embedded as integer epoch seconds, database tables as
lists of row structures, and each Python function as a pure Lean
function from old state to new state.  Fallible code is embedded with
an explicit error constructor.
-/

namespace TripSignal

/-- Timestamps: integer epoch seconds. -/
abbrev Time := Int

/-- Python `str.strip()`: remove leading and trailing whitespace. -/
def pyStrip (s : String) : String :=
  ⟨((s.data.dropWhile Char.isWhitespace).reverse.dropWhile Char.isWhitespace).reverse⟩

/-! ## Outbox rows

`app/db/models/notification_outbox.py`.  The `notifications_outbox`
table columns used by the workers; `next_attempt_at` is nullable in the
database (migration `1f49572a7614`), so it is an `Option Time` here.
Row ids are `Nat` surrogates for the UUID primary key. -/

/-- Allowed `notifications_outbox.status` values (check constraint
`outbox_status_valid_values`, migration `560725948520`). -/
inductive OStatus where
  | pending
  | sending
  | sent
  | dead
deriving DecidableEq, Repr

structure OutboxRow where
  id : Nat
  created_at : Time
  updated_at : Time
  sent_at : Option Time
  status : OStatus
  attempts : Nat
  next_attempt_at : Option Time
  last_error : Option String
  signal_id : Option Nat
  match_id : Option Nat
  channel : String
  to_email : String
deriving DecidableEq, Repr

/-- Retry backoff schedule shared by both workers
(`BACKOFF_SECONDS = [30, 120, 600, 1800, 7200]`). -/
def BACKOFF_SECONDS : List Int := [30, 120, 600, 1800, 7200]

/-- Retry ceiling shared by both workers (`MAX_ATTEMPTS = 8`). -/
def MAX_ATTEMPTS : Nat := 8

/-! ## Email worker (`notifications_email_worker.py`) -/

/-- The admin recipient written by `enqueue_admin_alert`
(`to_email="admin"`). -/
def adminRecipient : String := "admin"

/-- Embeds `enqueue_admin_alert` (email worker, lines 25-61): build the
escalation rows added to the outbox for a terminally failed row.  The
guard skips rows whose stripped recipient is already `"admin"`; the new
row is `pending` on channel `log` addressed to `admin`, with
`created_at`/`updated_at`/`next_attempt_at` from the column server
defaults `now()`. -/
def enqueue_admin_alert (now : Time) (nextId : Nat) (failed_row : OutboxRow) :
    List OutboxRow :=
  if pyStrip failed_row.to_email = adminRecipient then
    []
  else
    [{ id := nextId
       created_at := now
       updated_at := now
       sent_at := none
       status := .pending
       attempts := 0
       next_attempt_at := some now
       last_error := none
       signal_id := failed_row.signal_id
       match_id := failed_row.match_id
       channel := "log"
       to_email := adminRecipient }]

/-- Embeds the email worker's `mark_sent` (lines 97-103). -/
def email_mark_sent (now : Time) (row : OutboxRow) : OutboxRow :=
  { row with
    status := .sent
    sent_at := some now
    last_error := none
    next_attempt_at := none
    updated_at := now }

/-- Embeds the email worker's `mark_failed` (lines 106-117): force the
row terminal-dead, then enqueue the admin alert.  Returns the updated
row and the rows newly added to the outbox. -/
def mark_failed (now : Time) (nextId : Nat) (row : OutboxRow) (reason : String) :
    OutboxRow × List OutboxRow :=
  let row' := { row with
    status := .dead
    last_error := some reason
    next_attempt_at := none
    updated_at := now }
  (row', enqueue_admin_alert now nextId row')

/-- Embeds the email worker's `mark_retry` (lines 120-133).  Returns the
updated row and the rows newly added to the outbox.  At or above the
attempt ceiling the row goes terminal-dead with `next_attempt_at`
cleared and the function returns; otherwise the next attempt is
scheduled after `BACKOFF_SECONDS[min(max(attempts-1,0),4)]` and the row
returns to `pending`.  Python's `(row.attempts or 1) - 1` maps to
truncated subtraction on `Nat`. -/
def mark_retry (now : Time) (row : OutboxRow) (err : String) :
    OutboxRow × List OutboxRow :=
  let row0 := { row with last_error := some err, updated_at := now }
  if MAX_ATTEMPTS ≤ row0.attempts then
    ({ row0 with status := .dead, next_attempt_at := none }, [])
  else
    let idx := min (row0.attempts - 1) (BACKOFF_SECONDS.length - 1)
    ({ row0 with
        next_attempt_at := some (now + BACKOFF_SECONDS.getD idx 0)
        status := .pending }, [])

/-! ## Log worker (`notifications_log_worker.py`) -/

/-- Embeds the log worker's `mark_sent` (lines 55-60): the row becomes
`sent` but `next_attempt_at` is written as `now()` rather than cleared
("keep NOT NULL happy"). -/
def log_mark_sent (now : Time) (row : OutboxRow) : OutboxRow :=
  { row with
    status := .sent
    last_error := none
    next_attempt_at := some now
    updated_at := now }

/-- Embeds the log worker's `mark_retry` (lines 64-77): as the email
worker's, except that the terminal-dead branch writes
`next_attempt_at = now()` instead of clearing it. -/
def log_mark_retry (now : Time) (row : OutboxRow) (err : String) :
    OutboxRow × List OutboxRow :=
  let row0 := { row with last_error := some err, updated_at := now }
  if MAX_ATTEMPTS ≤ row0.attempts then
    ({ row0 with status := .dead, next_attempt_at := some now }, [])
  else
    let idx := min (row0.attempts - 1) (BACKOFF_SECONDS.length - 1)
    ({ row0 with
        next_attempt_at := some (now + BACKOFF_SECONDS.getD idx 0)
        status := .pending }, [])

/-! ## Batch claiming (both workers, identical up to the channel) -/

/-- Eligibility filter of `claim_batch` (email worker lines 67-79, log
worker lines 26-38): channel matches, `next_attempt_at <= now()` (a SQL
comparison against NULL does not select the row), and status is
`pending`, or `sending` with `updated_at` older than the five-minute
staleness cutoff. -/
def claimEligible (channel : String) (now : Time) (r : OutboxRow) : Bool :=
  decide (r.channel = channel) &&
  (match r.next_attempt_at with
    | some t => decide (t ≤ now)
    | none => false) &&
  (decide (r.status = .pending) ||
    (decide (r.status = .sending) && decide (r.updated_at < now - 5 * 60)))

/-- Row order used by `claim_batch`: `ORDER BY created_at ASC`. -/
def createdLe (a b : OutboxRow) : Prop := a.created_at ≤ b.created_at

instance : DecidableRel createdLe := fun _ _ => Int.decLe _ _

instance : IsTotal OutboxRow createdLe := ⟨fun _ _ => Int.le_total _ _⟩

instance : IsTrans OutboxRow createdLe := ⟨fun _ _ _ => Int.le_trans⟩

/-- Row selection of `claim_batch`: eligible rows not locked by a
concurrent claimer (`FOR UPDATE SKIP LOCKED`), ordered oldest
`created_at` first, limited to `limit` rows.  `locked` is the set of row
ids currently row-locked by other transactions; a lone claimer passes
`[]`. -/
def claim_select (channel : String) (now : Time) (limit : Nat)
    (locked : List Nat) (db : List OutboxRow) : List OutboxRow :=
  ((db.filter fun r => claimEligible channel now r && !(locked.contains r.id)).insertionSort
    createdLe).take limit

/-- In-transaction update applied to every selected row before commit
(email worker lines 87-93, log worker lines 46-52). -/
def claimUpdate (now : Time) (r : OutboxRow) : OutboxRow :=
  { r with status := .sending, attempts := r.attempts + 1, updated_at := now }

/-- Embeds `claim_batch`: select, update the selected rows in place, and
return the updated table together with the claimed (already updated)
rows.  Delivery of a claimed row happens only after this function's
commit. -/
def claim_batch (channel : String) (now : Time) (limit : Nat)
    (locked : List Nat) (db : List OutboxRow) :
    List OutboxRow × List OutboxRow :=
  let sel := claim_select channel now limit locked db
  let ids := sel.map (·.id)
  (db.map fun r => if ids.contains r.id then claimUpdate now r else r,
   sel.map (claimUpdate now))

/-! ## Price trend (`app/api/routes/deal_matches.py`, `get_price_trend`)

The SQL query returns the deal's two most recent `deal_price_history`
rows ordered `recorded_at DESC`; the embedding takes the full history
as a list of prices already in that order and keeps the `LIMIT 2` as
`take 2`.  Python computes `change_pct` with real division and raises
`ZeroDivisionError` when the previous price is zero; the embedding uses
exact rational arithmetic and an explicit error constructor. -/

inductive Trend where
  | down
  | up
  | stable
deriving DecidableEq, Repr

inductive TrendResult where
  /-- Fewer than two history points: the code returns `(None, None)`. -/
  | noTrend
  /-- The previous price is zero: the division raises `ZeroDivisionError`. -/
  | divisionError
  /-- A computed trend together with the previous price. -/
  | trend (t : Trend) (previous : Int)
deriving DecidableEq, Repr

/-- Embeds `get_price_trend` (lines 23-44) over the price list of the
deal's history rows in `recorded_at DESC` order. -/
def get_price_trend (history : List Int) : TrendResult :=
  match history.take 2 with
  | [current, previous] =>
      if previous = 0 then .divisionError
      else
        let change_pct : Rat := ((current : Rat) - previous) / previous * 100
        if change_pct ≤ -5 then .trend .down previous
        else if 5 ≤ change_pct then .trend .up previous
        else .trend .stable previous
  | _ => .noTrend

/-! ## Signal matcher (`app/workers/selloff_scraper.py`, `match_deal_to_signals`)

Signal config fields come from the JSONB blob: an absent or
empty-string field is `none`.  Dates are embedded at month granularity:
the source compares `depart_date` against the first day of the start
month and the last day of the end month, which holds exactly when the
departure's calendar month lies between the two months, so months are
embedded as absolute month indices. -/

structure SignalConfig where
  start_month : Option Nat
  end_month : Option Nat
  min_nights : Option Nat
  max_nights : Option Nat
  min_star_rating : Option Rat
  target_pp : Option Int
  adults : Option Int
  strict : Bool
deriving DecidableEq, Repr

structure SignalRow where
  id : Nat
  status : String
  departure_airports : List String
  destination_regions : List String
  config : SignalConfig
deriving DecidableEq, Repr

/-- The deal-side inputs read by the matcher: `deal_meta["gateway"]`,
`deal_meta["region"]` (nullable), `deal.depart_date` (its absolute
month), `deal_meta["duration_days"]`, `deal.price_cents`,
`deal.star_rating` (nullable). -/
structure DealFacts where
  gateway : String
  region : Option String
  depart_month : Nat
  duration_days : Nat
  price_cents : Int
  star_rating : Option Rat
deriving DecidableEq, Repr

/-- Guard 1 (line 275): `deal_meta["gateway"] not in signal.departure_airports`. -/
def gatewayOk (s : SignalRow) (d : DealFacts) : Bool :=
  decide (d.gateway ∈ s.departure_airports)

/-- Guard 2 (line 277): `deal_meta["region"] not in signal.destination_regions`;
a `None` region is never an element of the text array. -/
def regionOk (s : SignalRow) (d : DealFacts) : Bool :=
  match d.region with
  | some r => decide (r ∈ s.destination_regions)
  | none => false

/-- Guard 3 (lines 280-290): the month window applies only when both
month strings are present and non-empty. -/
def windowOk (s : SignalRow) (d : DealFacts) : Bool :=
  match s.config.start_month, s.config.end_month with
  | some sm, some em =>
      decide (sm ≤ d.depart_month) && decide (d.depart_month ≤ em)
  | _, _ => true

/-- Guard 4a (line 294): `if min_nights and duration < min_nights`. -/
def minNightsOk (s : SignalRow) (d : DealFacts) : Bool :=
  match s.config.min_nights with
  | some v => !(decide (v ≠ 0) && decide (d.duration_days < v))
  | none => true

/-- Guard 4b (line 296): `if max_nights and duration > max_nights`. -/
def maxNightsOk (s : SignalRow) (d : DealFacts) : Bool :=
  match s.config.max_nights with
  | some v => !(decide (v ≠ 0) && decide (v < d.duration_days))
  | none => true

/-- Guard 5 (lines 300-303): `if min_star_rating and deal.star_rating
is not None: if deal.star_rating < min_star_rating`. -/
def ratingOk (s : SignalRow) (d : DealFacts) : Bool :=
  match s.config.min_star_rating, d.star_rating with
  | some m, some r => !(decide (m ≠ 0) && decide (r < m))
  | _, _ => true

/-- Guard 6 (lines 305-311): `if target_pp and strict: if price_cents >
target_pp * adults * 100`, with `adults = travellers.get("adults", 2)`. -/
def budgetOk (s : SignalRow) (d : DealFacts) : Bool :=
  match s.config.target_pp with
  | some t =>
      if decide (t ≠ 0) && s.config.strict then
        decide (d.price_cents ≤ t * s.config.adults.getD 2 * 100)
      else true
  | none => true

/-- Embeds the per-signal body of `match_deal_to_signals` (lines
268-313): the six `continue` guards, in source order.  Python
truthiness of a present numeric field is `≠ 0`. -/
def signal_accepts (s : SignalRow) (d : DealFacts) : Bool :=
  gatewayOk s d && regionOk s d && windowOk s d && minNightsOk s d &&
    maxNightsOk s d && ratingOk s d && budgetOk s d

/-- Embeds `match_deal_to_signals` (lines 262-318): active signals that
accept the deal. -/
def match_deal_to_signals (signals : List SignalRow) (d : DealFacts) :
    List SignalRow :=
  (signals.filter fun s => decide (s.status = "active")).filter
    fun s => signal_accepts s d

/-! ## Match recorder (`app/api/routes/deal_matches.py`, `create_signal_match`)

State of the three tables the endpoint writes.  Row ids are `Nat`
surrogates drawn from per-table counters.  The duplicate-pair insert
raises `IntegrityError` exactly when a row with the same
`(signal_id, deal_id)` exists (unique constraint
`uq_deal_matches_signal_deal`); the handler rolls the insert back,
re-queries the existing row, points its `run_id` at the new run and
enqueues nothing. -/

structure MatchRow where
  id : Nat
  signal_id : Nat
  deal_id : Nat
  run_id : Option Nat
deriving DecidableEq, Repr

structure RunRow where
  id : Nat
  status : String
  matches_created_count : Nat
deriving DecidableEq, Repr

structure RecorderState where
  deal_matches : List MatchRow
  runs : List RunRow
  outbox : List OutboxRow
  nextMatchId : Nat
  nextRunId : Nat
  nextOutboxId : Nat
deriving Repr

/-- The notification row enqueued for a newly created match (lines
155-166): `pending` on channel `log`, `to_email="log"`,
`next_attempt_at = now`. -/
def matchNotification (now : Time) (outboxId sid mid : Nat) : OutboxRow :=
  { id := outboxId
    created_at := now
    updated_at := now
    sent_at := none
    status := .pending
    attempts := 0
    next_attempt_at := some now
    last_error := none
    signal_id := some sid
    match_id := some mid
    channel := "log"
    to_email := "log" }

/-- Embeds `create_signal_match` (lines 86-187) for signal `sid` and
deal `did`, as a map from committed state to committed state.

New pair: insert the match linked to the new run, enqueue one
notification, close the run as `success` with created count 1, and
commit.

Duplicate pair: the insert at line 115 hits the unique constraint and
the handler runs `db.rollback()` (line 118), which also rolls back the
new run's INSERT flushed at line 101.  The handler then re-queries the
existing row and flushes `match.run_id = run.id` (lines 133-135) — a
reference to the just-rolled-back run id, which the foreign key on
`deal_matches.run_id` (`deal_match.py` lines 39-44) rejects, since the
run row no longer exists.  That error reaches the outer handler (line
181), whose own `db.commit()` (line 186) fails on the already-failed
session, so the request errors and the transaction commits nothing:
the committed state is unchanged — in particular the existing row's
`run_id` keeps the run that created it, and no run row for the
duplicate invocation exists. -/
def create_signal_match (now : Time) (sid did : Nat) (st : RecorderState) :
    RecorderState :=
  if st.deal_matches.any fun m => m.signal_id == sid && m.deal_id == did then
    st
  else
    let rid := st.nextRunId
    let mid := st.nextMatchId
    { st with
      deal_matches := st.deal_matches ++ [⟨mid, sid, did, some rid⟩]
      outbox := st.outbox ++ [matchNotification now st.nextOutboxId sid mid]
      runs := st.runs ++ [⟨rid, "success", 1⟩]
      nextMatchId := mid + 1
      nextRunId := rid + 1
      nextOutboxId := st.nextOutboxId + 1 }

/-- `n` successive invocations of `create_signal_match` for the same
`(signal, deal)` pair. -/
def recordMatchN (now : Time) (sid did : Nat) :
    Nat → RecorderState → RecorderState
  | 0, st => st
  | n + 1, st => recordMatchN now sid did n (create_signal_match now sid did st)

/-! ## Deal store (`app/workers/selloff_scraper.py`, `upsert_deal`)

Only the fields `upsert_deal` reads and the claims mention are kept on
the candidate and the rows. -/

structure Candidate where
  gateway : String
  hotel_id : String
  depart_date : String
  duration_days : Nat
  price_cents : Int
deriving DecidableEq, Repr

/-- The dedupe key f-string of `upsert_deal` (line 222). -/
def dedupe_key_of (c : Candidate) : String :=
  "selloff:" ++ c.gateway ++ ":" ++ c.hotel_id ++ ":" ++ c.depart_date ++
    ":" ++ toString c.duration_days

structure DealRow where
  id : Nat
  dedupe_key : String
  price_cents : Int
deriving DecidableEq, Repr

structure PricePointRow where
  deal_id : Nat
  price_cents : Int
deriving DecidableEq, Repr

structure DealStore where
  deals : List DealRow
  history : List PricePointRow
  nextDealId : Nat
deriving Repr

/-- Embeds `upsert_deal` (lines 221-259): look the dedupe key up; if a
deal exists, write the new price only when it differs and always append
a history point for the observation; otherwise insert a new deal and
append its initial history point. -/
def upsert_deal (st : DealStore) (c : Candidate) : DealStore :=
  match st.deals.find? fun d => d.dedupe_key == dedupe_key_of c with
  | some existing =>
      { st with
        deals :=
          if existing.price_cents ≠ c.price_cents then
            st.deals.map fun d =>
              if d.dedupe_key == dedupe_key_of c then
                { d with price_cents := c.price_cents }
              else d
          else st.deals
        history := st.history ++ [⟨existing.id, c.price_cents⟩] }
  | none =>
      { deals := st.deals ++ [⟨st.nextDealId, dedupe_key_of c, c.price_cents⟩]
        history := st.history ++ [⟨st.nextDealId, c.price_cents⟩]
        nextDealId := st.nextDealId + 1 }

/-- Fold `upsert_deal` over a list of candidates. -/
def upsertAll (st : DealStore) : List Candidate → DealStore
  | [] => st
  | c :: cs => upsertAll (upsert_deal st c) cs

/-! ## Derived predicates used by the statements -/

/-- The spec invariant on an outbox row: `next_attempt_at` is NULL
exactly when the status is terminal (`sent` or `dead`). -/
def terminalNullInv (r : OutboxRow) : Prop :=
  r.next_attempt_at = none ↔ (r.status = .sent ∨ r.status = .dead)

/-- The match rows of one `(signal, deal)` pair. -/
def pairRows (sid did : Nat) (l : List MatchRow) : List MatchRow :=
  l.filter fun m => m.signal_id == sid && m.deal_id == did

/-- The deal rows carrying one dedupe key. -/
def keyRows (k : String) (l : List DealRow) : List DealRow :=
  l.filter fun d => d.dedupe_key == k

/-- The matcher acceptance condition spelled out as a proposition: the
two membership tests are strict, the four optional predicates bind only
when specified on the signal and present on the deal. -/
def matchesSpec (s : SignalRow) (d : DealFacts) : Prop :=
  d.gateway ∈ s.departure_airports ∧
  (∃ r, d.region = some r ∧ r ∈ s.destination_regions) ∧
  (∀ sm, s.config.start_month = some sm → ∀ em, s.config.end_month = some em →
    sm ≤ d.depart_month ∧ d.depart_month ≤ em) ∧
  (∀ v, s.config.min_nights = some v → v ≠ 0 → v ≤ d.duration_days) ∧
  (∀ v, s.config.max_nights = some v → v ≠ 0 → d.duration_days ≤ v) ∧
  (∀ m, s.config.min_star_rating = some m → m ≠ 0 →
    ∀ r, d.star_rating = some r → m ≤ r) ∧
  (∀ t, s.config.target_pp = some t → t ≠ 0 → s.config.strict = true →
    d.price_cents ≤ t * s.config.adults.getD 2 * 100)

/-! ## Concrete fixtures for the witnesses -/

/-- A plain pending email row; witnesses adjust fields as needed. -/
def baseRow : OutboxRow :=
  { id := 0
    created_at := 0
    updated_at := 0
    sent_at := none
    status := .pending
    attempts := 0
    next_attempt_at := some 0
    last_error := none
    signal_id := none
    match_id := none
    channel := "email"
    to_email := "user" }

/-- An email row whose attempt counter has reached the ceiling. -/
def c1Row : OutboxRow := { baseRow with id := 11, attempts := 8 }

/-- Outbox fixture for the claiming witnesses: three eligible email
rows in age order and one ineligible log row. -/
def c4Db : List OutboxRow :=
  [ { baseRow with id := 1, created_at := 30 },
    { baseRow with id := 2, created_at := 10 },
    { baseRow with id := 3, created_at := 20 },
    { baseRow with id := 4, created_at := 0, channel := "log" } ]

/-- Outbox fixture for the skip-locked witness: two eligible rows. -/
def c9Db : List OutboxRow :=
  [ { baseRow with id := 1, created_at := 0 },
    { baseRow with id := 2, created_at := 5 } ]

/-- A delivered (sent) notification for signal 1, `sent_at` one hour
before the reference instant 90000 of the cooldown scenario. -/
def c5SentRow : OutboxRow :=
  { baseRow with
    id := 9
    status := .sent
    sent_at := some 86400
    next_attempt_at := none
    signal_id := some 1
    match_id := some 3 }

/-- Recorder state holding the delivered notification of `c5SentRow`
and its match row for a different deal; the `(1, 7)` pair is new. -/
def c5State : RecorderState :=
  { deal_matches := [⟨3, 1, 5, some 0⟩]
    runs := [⟨0, "success", 1⟩]
    outbox := [c5SentRow]
    nextMatchId := 4
    nextRunId := 1
    nextOutboxId := 10 }

/-- Recorder state with no rows at all. -/
def emptyRecorder : RecorderState :=
  { deal_matches := []
    runs := []
    outbox := []
    nextMatchId := 0
    nextRunId := 0
    nextOutboxId := 0 }

/-- A signal that specifies none of the six constraints: both sets
empty, every optional field absent. -/
def c6Signal : SignalRow :=
  { id := 1
    status := "active"
    departure_airports := []
    destination_regions := []
    config :=
      { start_month := none
        end_month := none
        min_nights := none
        max_nights := none
        min_star_rating := none
        target_pp := none
        adults := none
        strict := false } }

/-- A deal lacking the optional attributes (no region, no rating). -/
def c6Deal : DealFacts :=
  { gateway := "YYZ"
    region := none
    depart_month := 673
    duration_days := 7
    price_cents := 90000
    star_rating := none }

/-- A fully specified signal used by the amended-matcher witness. -/
def c6SignalFull : SignalRow :=
  { id := 2
    status := "active"
    departure_airports := ["YYZ", "YUL"]
    destination_regions := ["mexico"]
    config :=
      { start_month := some 672
        end_month := some 674
        min_nights := some 7
        max_nights := some 10
        min_star_rating := some 3
        target_pp := some 1200
        adults := some 2
        strict := true } }

/-- The deal of the spec's end-to-end scenario: $900 from YYZ to
mexico, 7 nights, 4 stars. -/
def c6DealFull : DealFacts :=
  { gateway := "YYZ"
    region := some "mexico"
    depart_month := 673
    duration_days := 7
    price_cents := 90000
    star_rating := some 4 }

/-- Empty deal store. -/
def emptyStore : DealStore :=
  { deals := [], history := [], nextDealId := 0 }

/-- Two observations of the same inventory slot at different prices. -/
def c7Cands : List Candidate :=
  [ { gateway := "YYZ"
      hotel_id := "55"
      depart_date := "2026-03-10"
      duration_days := 7
      price_cents := 100000 },
    { gateway := "YYZ"
      hotel_id := "55"
      depart_date := "2026-03-10"
      duration_days := 7
      price_cents := 94000 } ]

/-- The shared dedupe key of `c7Cands`. -/
def c7Key : String := "selloff:YYZ:55:2026-03-10:7"

/-! ## C1 — retry at the attempt ceiling -/

/-- C1.  An email-channel row that fails delivery once its attempt
counter has reached `MAX_ATTEMPTS = 8` is handled by `mark_retry` (the
only failure handler the worker loop invokes, lines 195 and 201 of
`notifications_email_worker.py`).  `mark_retry` does transition the row
to `dead` with `next_attempt_at` cleared, but it enqueues no escalation
message at all: its terminal branch returns before any call to
`enqueue_admin_alert`, and `mark_failed` — the handler that does
escalate — has no caller.  The claim's "exactly one escalation message
is enqueued" is therefore refuted: the escalation count is zero. -/
theorem mark_retry_at_ceiling_enqueues_no_escalation
    (now : Time) (row : OutboxRow) (err : String)
    (h : MAX_ATTEMPTS ≤ row.attempts) :
    (mark_retry now row err).1.status = .dead ∧
    (mark_retry now row err).1.next_attempt_at = none ∧
    (mark_retry now row err).2 = [] := by
  simp [mark_retry, if_pos h]

/-- Witness for C1: the concrete row `c1Row` with `attempts = 8`. -/
theorem mark_retry_at_ceiling_enqueues_no_escalation_witness :
    (mark_retry 100 c1Row ("smtp timeout")).1.status = .dead ∧
    (mark_retry 100 c1Row ("smtp timeout")).1.next_attempt_at = none ∧
    (mark_retry 100 c1Row ("smtp timeout")).2 = [] :=
  mark_retry_at_ceiling_enqueues_no_escalation 100 c1Row ("smtp timeout")
    (by decide)

/-- Supporting fact: the uncalled `mark_failed` implements exactly the
behaviour C1 describes — terminal-dead, `next_attempt_at` cleared, and
one escalation addressed to the admin recipient unless the failed row
already addresses the admin recipient. -/
theorem mark_failed_escalates_once_unless_admin
    (now : Time) (nextId : Nat) (row : OutboxRow) (reason : String) :
    (mark_failed now nextId row reason).1.status = .dead ∧
    (mark_failed now nextId row reason).1.next_attempt_at = none ∧
    (pyStrip row.to_email ≠ adminRecipient →
      ∃ alert, (mark_failed now nextId row reason).2 = [alert] ∧
        alert.to_email = adminRecipient ∧ alert.status = .pending ∧
        alert.channel = "log") ∧
    (pyStrip row.to_email = adminRecipient →
      (mark_failed now nextId row reason).2 = []) := by
  refine ⟨rfl, rfl, fun h => ?_, fun h => ?_⟩
  · simp only [mark_failed, enqueue_admin_alert]
    rw [if_neg h]
    exact ⟨_, rfl, rfl, rfl, rfl⟩
  · simp only [mark_failed, enqueue_admin_alert]
    rw [if_pos h]

/-! ## C3 — the NULL-iff-terminal invariant -/

/-- C3.  The claimed invariant — `next_attempt_at` is null exactly when
the status is `sent` or `dead` — is broken by the log worker: its
`mark_sent` writes `next_attempt_at = now()` on the row it marks
`sent` (and its `mark_retry` terminal branch does the same on `dead`
rows), so any successfully delivered log-channel row leaves the
invariant false. -/
theorem log_mark_sent_breaks_terminal_null (now : Time) (row : OutboxRow) :
    (log_mark_sent now row).status = .sent ∧
    (log_mark_sent now row).next_attempt_at = some now ∧
    ¬ terminalNullInv (log_mark_sent now row) := by
  refine ⟨rfl, rfl, fun hinv => ?_⟩
  have h := hinv.mpr (Or.inl rfl)
  simp [log_mark_sent] at h

/-- Witness for C3 at a concrete row and instant. -/
theorem log_mark_sent_breaks_terminal_null_witness :
    (log_mark_sent 500 baseRow).status = .sent ∧
    (log_mark_sent 500 baseRow).next_attempt_at = some 500 ∧
    ¬ terminalNullInv (log_mark_sent 500 baseRow) :=
  log_mark_sent_breaks_terminal_null 500 baseRow

/-! ## C8 and C10 — the price-trend view -/

/-- C8 counterexample.  At 1000 → 950 the change is exactly −5%, which
is not below −5%, yet the code's weak comparison `change_pct <= -5`
classifies it as `down`; the claim's "'down' exactly when the change is
below −5%" fails at this input. -/
theorem get_price_trend_at_minus_five_percent :
    get_price_trend [950, 1000] = .trend .down 1000 ∧
    ¬ ((950 : Rat) - 1000) / 1000 * 100 < -5 := by
  constructor
  · simp only [get_price_trend, List.take]
    norm_num
  · norm_num

/-- Reduction of `get_price_trend` once the two most recent prices are
known. -/
theorem get_price_trend_pair (history : List Int) (current previous : Int)
    (h : history.take 2 = [current, previous]) :
    get_price_trend history =
      if previous = 0 then .divisionError
      else if ((current : Rat) - previous) / previous * 100 ≤ -5 then
        .trend .down previous
      else if 5 ≤ ((current : Rat) - previous) / previous * 100 then
        .trend .up previous
      else .trend .stable previous := by
  unfold get_price_trend
  rw [h]

/-- C8 as amended.  The comparisons are inclusive: with at least two
history points and a nonzero previous price, the result is `down`
exactly when the change is at or below −5%, `up` exactly when it is at
or above +5%, `stable` exactly when it is strictly between, and any
shorter history yields no trend. -/
theorem get_price_trend_thresholds (history : List Int)
    (current previous : Int) (h : history.take 2 = [current, previous])
    (hp : previous ≠ 0) :
    (get_price_trend history = .trend .down previous ↔
      ((current : Rat) - previous) / previous * 100 ≤ -5) ∧
    (get_price_trend history = .trend .up previous ↔
      5 ≤ ((current : Rat) - previous) / previous * 100) ∧
    (get_price_trend history = .trend .stable previous ↔
      (-5 < ((current : Rat) - previous) / previous * 100 ∧
        ((current : Rat) - previous) / previous * 100 < 5)) ∧
    (∀ l : List Int, l.length ≤ 1 → get_price_trend l = .noTrend) := by
  have hshort : ∀ l : List Int, l.length ≤ 1 → get_price_trend l = .noTrend := by
    intro l hl
    match l, hl with
    | [], _ => rfl
    | [_], _ => rfl
  rw [get_price_trend_pair history current previous h]
  rw [if_neg hp]
  set c : Rat := ((current : Rat) - previous) / previous * 100 with hc
  by_cases h1 : c ≤ -5
  · rw [if_pos h1]
    refine ⟨by simp [h1], ?_, ?_, hshort⟩
    · constructor
      · intro he; cases he
      · intro h5; linarith
    · constructor
      · intro he; cases he
      · intro h5; linarith [h5.1]
  · rw [if_neg h1]
    by_cases h2 : 5 ≤ c
    · rw [if_pos h2]
      refine ⟨?_, by simp [h2], ?_, hshort⟩
      · constructor
        · intro he; cases he
        · intro h5; linarith
      · constructor
        · intro he; cases he
        · intro h5; linarith [h5.2]
    · rw [if_neg h2]
      refine ⟨?_, ?_, by constructor <;> intro <;> [constructor; rfl] <;> linarith, hshort⟩
      · constructor
        · intro he; cases he
        · intro h5; exact absurd h5 h1
      · constructor
        · intro he; cases he
        · intro h5; exact absurd h5 h2

/-- Witness for the amended C8 at the spec's example 1000 → 940. -/
theorem get_price_trend_thresholds_witness :
    get_price_trend [940, 1000] = .trend .down 1000 ↔
      ((940 : Rat) - 1000) / 1000 * 100 ≤ -5 :=
  (get_price_trend_thresholds [940, 1000] 940 1000 rfl (by norm_num)).1

/-- C10.  With at least two history points the percentage-change
division is unguarded: a zero second-most-recent price makes the code
raise `ZeroDivisionError`, and a nonzero one always yields one of the
three trends. -/
theorem get_price_trend_zero_previous (history : List Int)
    (current previous : Int) (h : history.take 2 = [current, previous]) :
    (previous = 0 → get_price_trend history = .divisionError) ∧
    (previous ≠ 0 → ∃ t, get_price_trend history = .trend t previous) := by
  rw [get_price_trend_pair history current previous h]
  constructor
  · intro hp
    rw [if_pos hp]
  · intro hp
    rw [if_neg hp]
    split
    · exact ⟨.down, rfl⟩
    · split
      · exact ⟨.up, rfl⟩
      · exact ⟨.stable, rfl⟩

/-- Witness for C10: a two-point history whose previous price is zero
reaches the division error. -/
theorem get_price_trend_zero_previous_witness :
    get_price_trend [1000, 0] = .divisionError :=
  (get_price_trend_zero_previous [1000, 0] 1000 0 rfl).1 rfl

/-! ## C5 — no notification cooldown in the recorder -/

/-- C5.  `create_signal_match` performs no delivered-within-cooldown
check: in a state that already holds a `sent` notification for signal 1
delivered one hour earlier (well inside the default 24-hour window),
recording a new `(1, 7)` match still enqueues a fresh notification.
The only time-based throttle in the codebase is the scraper's
digest-email skip for free-trial users (`run_scraper` lines 521-531),
which consults `DealMatch.matched_at`, not delivered messages, and does
not guard the outbox enqueue. -/
theorem create_signal_match_ignores_recent_delivery :
    (c5SentRow ∈ c5State.outbox ∧ c5SentRow.status = .sent ∧
      c5SentRow.signal_id = some 1 ∧ c5SentRow.sent_at = some 86400 ∧
      (90000 : Int) - 86400 < 24 * 60 * 60) ∧
    pairRows 1 7 c5State.deal_matches = [] ∧
    (create_signal_match 90000 1 7 c5State).outbox =
      c5State.outbox ++ [matchNotification 90000 10 1 4] := by
  decide

/-! ## C6 — permissiveness of the matcher predicates -/

/-- C6 counterexample.  A signal that specifies none of the six
constraints (both membership arrays empty, every optional field
absent) and a deal lacking region and rating: per the claim every
predicate's input is missing so the pair must match, but the code's
membership guards `gateway not in []` and `None not in []` disqualify
it. -/
theorem matcher_unspecified_signal_matches_nothing :
    c6Signal.departure_airports = [] ∧ c6Signal.destination_regions = [] ∧
    c6Signal.config.start_month = none ∧ c6Signal.config.end_month = none ∧
    c6Signal.config.min_nights = none ∧ c6Signal.config.max_nights = none ∧
    c6Signal.config.min_star_rating = none ∧
    c6Signal.config.target_pp = none ∧
    c6Deal.region = none ∧ c6Deal.star_rating = none ∧
    signal_accepts c6Signal c6Deal = false ∧
    match_deal_to_signals [c6Signal] c6Deal = [] := by
  decide

theorem gatewayOk_iff (s : SignalRow) (d : DealFacts) :
    gatewayOk s d = true ↔ d.gateway ∈ s.departure_airports := by
  simp [gatewayOk]

theorem regionOk_iff (s : SignalRow) (d : DealFacts) :
    regionOk s d = true ↔
      ∃ r, d.region = some r ∧ r ∈ s.destination_regions := by
  cases h : d.region <;> simp [regionOk, h]

theorem windowOk_iff (s : SignalRow) (d : DealFacts) :
    windowOk s d = true ↔
      ∀ sm, s.config.start_month = some sm →
        ∀ em, s.config.end_month = some em →
          sm ≤ d.depart_month ∧ d.depart_month ≤ em := by
  cases h1 : s.config.start_month <;> cases h2 : s.config.end_month <;>
    simp [windowOk, h1, h2]

theorem minNightsOk_iff (s : SignalRow) (d : DealFacts) :
    minNightsOk s d = true ↔
      ∀ v, s.config.min_nights = some v → v ≠ 0 → v ≤ d.duration_days := by
  cases h : s.config.min_nights with
  | none => simp [minNightsOk, h]
  | some v =>
      simp [minNightsOk, h, Nat.not_lt]
      tauto

theorem maxNightsOk_iff (s : SignalRow) (d : DealFacts) :
    maxNightsOk s d = true ↔
      ∀ v, s.config.max_nights = some v → v ≠ 0 → d.duration_days ≤ v := by
  cases h : s.config.max_nights with
  | none => simp [maxNightsOk, h]
  | some v =>
      simp [maxNightsOk, h, Nat.not_lt]
      tauto

theorem ratingOk_iff (s : SignalRow) (d : DealFacts) :
    ratingOk s d = true ↔
      ∀ m, s.config.min_star_rating = some m → m ≠ 0 →
        ∀ r, d.star_rating = some r → m ≤ r := by
  cases h1 : s.config.min_star_rating <;> cases h2 : d.star_rating <;>
    simp [ratingOk, h1, h2, not_lt]
  tauto

theorem budgetOk_iff (s : SignalRow) (d : DealFacts) :
    budgetOk s d = true ↔
      ∀ t, s.config.target_pp = some t → t ≠ 0 → s.config.strict = true →
        d.price_cents ≤ t * s.config.adults.getD 2 * 100 := by
  cases h : s.config.target_pp with
  | none => simp [budgetOk, h]
  | some t =>
      by_cases ht : t = 0
      · simp [budgetOk, h, ht]
      · cases hs : s.config.strict <;> simp [budgetOk, h, ht, hs]

/-- C6 as amended.  Only the four optional predicates (travel window,
nights bounds, star rating, budget) are permissive when their input is
missing on either side; the departure-airport and destination-region
predicates are strict membership tests, so an empty signal set or a
null deal region disqualifies the pair.  Matches(signal, deal) is true
exactly when both membership tests and every specified-and-evaluable
optional predicate pass. -/
theorem signal_accepts_iff_matchesSpec (s : SignalRow) (d : DealFacts) :
    signal_accepts s d = true ↔ matchesSpec s d := by
  unfold signal_accepts matchesSpec
  simp only [Bool.and_eq_true]
  rw [gatewayOk_iff, regionOk_iff, windowOk_iff, minNightsOk_iff,
    maxNightsOk_iff, ratingOk_iff, budgetOk_iff]
  tauto

/-- Witness for the amended C6: the spec's end-to-end scenario signal
and deal (YYZ → mexico, window around the departure month, 7-10
nights, minimum three stars, strict budget of $1200 per person for two
adults) satisfy both sides of the equivalence. -/
theorem signal_accepts_iff_matchesSpec_witness :
    signal_accepts c6SignalFull c6DealFull = true ↔
      matchesSpec c6SignalFull c6DealFull :=
  signal_accepts_iff_matchesSpec c6SignalFull c6DealFull

/-! ## C4 — the batch-claiming contract -/

/-- The eligibility filter, decoded to a proposition. -/
theorem claimEligible_iff (channel : String) (now : Time) (r : OutboxRow) :
    claimEligible channel now r = true ↔
      (r.channel = channel ∧
        (∃ t, r.next_attempt_at = some t ∧ t ≤ now) ∧
        (r.status = .pending ∨
          (r.status = .sending ∧ r.updated_at < now - 5 * 60))) := by
  cases h : r.next_attempt_at <;> simp [claimEligible, h, and_assoc]

/-- Selected rows belong to the eligibility filter of the table. -/
theorem mem_filter_of_mem_claim_select (channel : String) (now : Time)
    (limit : Nat) (locked : List Nat) (db : List OutboxRow) (r : OutboxRow)
    (hr : r ∈ claim_select channel now limit locked db) :
    r ∈ db.filter fun x =>
      claimEligible channel now x && !(locked.contains x.id) :=
  (List.perm_insertionSort createdLe _).subset (List.take_subset _ _ hr)

/-- C4.  Every row returned by a lone claimer's `claim_batch` comes
from the table, matched the worker's channel, had a non-null
`next_attempt_at` at or before `now`, and was `pending` or stale
`sending`; at most `limit` rows are selected; selection is oldest
`created_at` first (any eligible row left behind is no older); and
each claimed row is written back — and handed to the delivery loop —
with status `sending`, its attempt counter incremented by exactly one
and `updated_at` refreshed, before any delivery is attempted. -/
theorem claim_batch_contract (channel : String) (now : Time) (limit : Nat)
    (db : List OutboxRow) (r : OutboxRow)
    (hr : r ∈ claim_select channel now limit [] db) :
    (claim_select channel now limit [] db).length ≤ limit ∧
    r ∈ db ∧
    r.channel = channel ∧
    (∃ t, r.next_attempt_at = some t ∧ t ≤ now) ∧
    (r.status = .pending ∨
      (r.status = .sending ∧ r.updated_at < now - 5 * 60)) ∧
    (∀ s ∈ db, claimEligible channel now s = true →
      s ∉ claim_select channel now limit [] db →
        r.created_at ≤ s.created_at) ∧
    (claimUpdate now r).status = .sending ∧
    (claimUpdate now r).attempts = r.attempts + 1 ∧
    (claimUpdate now r).updated_at = now ∧
    claimUpdate now r ∈ (claim_batch channel now limit [] db).1 ∧
    claimUpdate now r ∈ (claim_batch channel now limit [] db).2 := by
  have hrF := mem_filter_of_mem_claim_select channel now limit [] db r hr
  have hrdb : r ∈ db := List.mem_of_mem_filter hrF
  have helig : claimEligible channel now r = true := by
    have h := List.of_mem_filter hrF
    simpa using h
  obtain ⟨hch, hnext, hstat⟩ := (claimEligible_iff channel now r).mp helig
  have hlen : (claim_select channel now limit [] db).length ≤ limit :=
    List.length_take_le _ _
  have hold : ∀ s ∈ db, claimEligible channel now s = true →
      s ∉ claim_select channel now limit [] db →
        r.created_at ≤ s.created_at := by
    intro s hs hse hsn
    have hsF : s ∈ db.filter fun x =>
        claimEligible channel now x && !(([] : List Nat).contains x.id) :=
      List.mem_filter.mpr ⟨hs, by simp [hse]⟩
    have hsSort := (List.perm_insertionSort createdLe _).mem_iff.mpr hsF
    have hsApp : s ∈ ((db.filter fun x =>
        claimEligible channel now x &&
          !(([] : List Nat).contains x.id)).insertionSort createdLe).take limit ++
        ((db.filter fun x => claimEligible channel now x &&
          !(([] : List Nat).contains x.id)).insertionSort createdLe).drop limit := by
      rw [List.take_append_drop]
      exact hsSort
    rcases List.mem_append.mp hsApp with htk | hdr
    · exact absurd htk hsn
    · exact (List.sorted_insertionSort createdLe _).rel_of_mem_take_of_mem_drop
        hr hdr
  have hidmem : r.id ∈ (claim_select channel now limit [] db).map (·.id) :=
    List.mem_map_of_mem _ hr
  have hcont :
      ((claim_select channel now limit [] db).map (·.id)).contains r.id =
        true := List.elem_iff.mpr hidmem
  refine ⟨hlen, hrdb, hch, hnext, hstat, hold, rfl, rfl, rfl, ?_, ?_⟩
  · exact List.mem_map.mpr ⟨r, hrdb, by exact if_pos hcont⟩
  · exact List.mem_map_of_mem (claimUpdate now) hr

/-- Witness for C4 on the fixture table: with `limit = 2` the second
oldest eligible email row is claimed, so the selection is bounded by
the limit. -/
theorem claim_batch_contract_witness :
    (claim_select ("email") 100 2 [] c4Db).length ≤ 2 :=
  (claim_batch_contract ("email") 100 2 c4Db
    { baseRow with id := 2, created_at := 10 } (by decide)).1

/-! ## C9 — skip-locked claimers never share a row -/

/-- C9.  Two concurrent `claim_batch` transactions: the first selects
with no rows locked and holds row locks on exactly its selection while
the second selects; `FOR UPDATE SKIP LOCKED` makes the second claimer's
scan skip every row whose id the first holds, so no row is returned by
both — the claimers partition the eligible set. -/
theorem claim_select_skip_locked_disjoint (channel : String) (now : Time)
    (limit1 limit2 : Nat) (db : List OutboxRow) (r : OutboxRow)
    (h1 : r ∈ claim_select channel now limit1 [] db) :
    r ∉ claim_select channel now limit2
        ((claim_select channel now limit1 [] db).map (·.id)) db := by
  intro h2
  have h2F := mem_filter_of_mem_claim_select channel now limit2
    ((claim_select channel now limit1 [] db).map (·.id)) db r h2
  have hcond := List.of_mem_filter h2F
  simp at hcond
  exact hcond.2 r h1 rfl

/-- Witness for C9 on a two-row fixture: the row claimed by the first
claimer is skipped by the second. -/
theorem claim_select_skip_locked_disjoint_witness :
    { baseRow with id := 1 } ∉ claim_select ("email") 100 1
      ((claim_select ("email") 100 1 [] c9Db).map (·.id)) c9Db :=
  claim_select_skip_locked_disjoint ("email") 100 1 1 c9Db
    { baseRow with id := 1 } (by decide)

/-! ## C2 — match recording under duplicate invocations -/

/-- C2.  From any state holding no row and no notification for the
pair, `n ≥ 1` invocations of `create_signal_match` collapse to the
first one: the creating invocation inserts the single match row,
enqueues the single notification and records its run, and every later
invocation for the pair errors out and commits nothing (its conflict
handler's rollback undoes the new run's INSERT, so re-pointing
`run_id` at that run violates the foreign key and the request fails).
Afterwards exactly one match row exists for the pair and exactly one
notification references it, but its `run_id` still references the run
of the creating invocation — not the run of the latest invocation —
and only that one run row was ever added. -/
theorem record_match_duplicate_commits_nothing (now : Time) (sid did : Nat)
    (n : Nat) (st : RecorderState)
    (hpair : pairRows sid did st.deal_matches = [])
    (hfresh : ∀ o ∈ st.outbox, ∀ j, o.match_id = some j → j < st.nextMatchId)
    (hn : n ≠ 0) :
    recordMatchN now sid did n st = create_signal_match now sid did st ∧
    (recordMatchN now sid did n st).deal_matches.countP
      (fun m => m.signal_id == sid && m.deal_id == did) = 1 ∧
    (∃ m, m ∈ (recordMatchN now sid did n st).deal_matches ∧
      m.signal_id = sid ∧ m.deal_id = did ∧ m.id = st.nextMatchId ∧
      m.run_id = some st.nextRunId) ∧
    (recordMatchN now sid did n st).outbox.countP
      (fun o => o.match_id == some st.nextMatchId) = 1 ∧
    (recordMatchN now sid did n st).runs.length = st.runs.length + 1 := by
  obtain ⟨k, rfl⟩ : ∃ k, n = k + 1 := ⟨n - 1, by omega⟩
  have hany : (st.deal_matches.any fun m =>
      m.signal_id == sid && m.deal_id == did) = false := by
    rw [List.any_eq_false]
    exact List.filter_eq_nil_iff.mp hpair
  have hstep : create_signal_match now sid did st =
      { st with
        deal_matches := st.deal_matches ++
          [⟨st.nextMatchId, sid, did, some st.nextRunId⟩]
        outbox := st.outbox ++
          [matchNotification now st.nextOutboxId sid st.nextMatchId]
        runs := st.runs ++ [⟨st.nextRunId, "success", 1⟩]
        nextMatchId := st.nextMatchId + 1
        nextRunId := st.nextRunId + 1
        nextOutboxId := st.nextOutboxId + 1 } := by
    unfold create_signal_match
    rw [if_neg (by simp [hany])]
  have hnewPred : ((⟨st.nextMatchId, sid, did,
      some st.nextRunId⟩ : MatchRow).signal_id == sid &&
      (⟨st.nextMatchId, sid, did, some st.nextRunId⟩ : MatchRow).deal_id ==
        did) = true := by simp
  have hpr1 : pairRows sid did
      (create_signal_match now sid did st).deal_matches =
      [⟨st.nextMatchId, sid, did, some st.nextRunId⟩] := by
    rw [hstep]
    show List.filter _ (st.deal_matches ++ _) = _
    rw [List.filter_append]
    rw [show List.filter (fun m => m.signal_id == sid && m.deal_id == did)
      st.deal_matches = [] from hpair]
    simp [List.filter_cons, hnewPred]
  have hmemPair : (⟨st.nextMatchId, sid, did, some st.nextRunId⟩ :
      MatchRow) ∈ List.filter
        (fun m => m.signal_id == sid && m.deal_id == did)
        (create_signal_match now sid did st).deal_matches := by
    show _ ∈ pairRows sid did (create_signal_match now sid did st).deal_matches
    rw [hpr1]
    exact List.mem_singleton.mpr rfl
  have hany1 : ((create_signal_match now sid did st).deal_matches.any fun m =>
      m.signal_id == sid && m.deal_id == did) = true :=
    List.any_eq_true.mpr ⟨_, List.mem_of_mem_filter hmemPair,
      @List.of_mem_filter MatchRow
        (fun m => m.signal_id == sid && m.deal_id == did) _
        (create_signal_match now sid did st).deal_matches hmemPair⟩
  have hdupGen : ∀ st' : RecorderState,
      (st'.deal_matches.any fun m =>
        m.signal_id == sid && m.deal_id == did) = true →
      create_signal_match now sid did st' = st' := by
    intro st' h
    unfold create_signal_match
    rw [if_pos h]
  have hfix : ∀ (j : Nat) (st' : RecorderState),
      (st'.deal_matches.any fun m =>
        m.signal_id == sid && m.deal_id == did) = true →
      recordMatchN now sid did j st' = st' := by
    intro j
    induction j with
    | zero => intro st' _; rfl
    | succ j ih =>
        intro st' h
        show recordMatchN now sid did j
          (create_signal_match now sid did st') = st'
        rw [hdupGen st' h]
        exact ih st' h
  have hE : recordMatchN now sid did (k + 1) st =
      create_signal_match now sid did st := by
    show recordMatchN now sid did k (create_signal_match now sid did st) =
      create_signal_match now sid did st
    exact hfix k _ hany1
  rw [hE]
  refine ⟨rfl, ?_, ?_, ?_, ?_⟩
  · rw [List.countP_eq_length_filter]
    show (pairRows sid did _).length = 1
    rw [hpr1]
    rfl
  · exact ⟨(⟨st.nextMatchId, sid, did, some st.nextRunId⟩ : MatchRow),
      List.mem_of_mem_filter hmemPair, rfl, rfl, rfl, rfl⟩
  · rw [hstep]
    show (st.outbox ++ [matchNotification now st.nextOutboxId sid
      st.nextMatchId]).countP _ = 1
    rw [List.countP_append]
    have h0 : st.outbox.countP
        (fun o => o.match_id == some st.nextMatchId) = 0 := by
      rw [List.countP_eq_zero]
      intro o hobox hbeq
      have : o.match_id = some st.nextMatchId := by
        simpa using hbeq
      exact absurd (hfresh o hobox st.nextMatchId this) (by omega)
    rw [h0]
    simp [matchNotification, List.countP_cons]
  · rw [hstep]
    show (st.runs ++ ([⟨st.nextRunId, "success", 1⟩] : List RunRow)).length =
      st.runs.length + 1
    simp

/-- Witness for C2: two recordings of the pair `(1, 7)` into the empty
recorder collapse to the first invocation — the duplicate commits
nothing — and exactly one run row exists afterwards. -/
theorem record_match_duplicate_commits_nothing_witness :
    recordMatchN 0 1 7 2 emptyRecorder =
      create_signal_match 0 1 7 emptyRecorder ∧
    (recordMatchN 0 1 7 2 emptyRecorder).runs.length = 1 :=
  ⟨(record_match_duplicate_commits_nothing 0 1 7 2 emptyRecorder rfl
      (by simp [emptyRecorder]) (by decide)).1,
    (record_match_duplicate_commits_nothing 0 1 7 2 emptyRecorder rfl
      (by simp [emptyRecorder]) (by decide)).2.2.2.2⟩

/-! ## C7 — one deal per dedupe key, one history point per observation -/

/-- A list whose filtrate is a singleton finds that element first. -/
theorem find?_eq_some_of_filter_singleton {α : Type} {p : α → Bool}
    {l : List α} {a : α} (h : l.filter p = [a]) : l.find? p = some a := by
  induction l with
  | nil => simp at h
  | cons x tl ih =>
      by_cases hx : p x = true
      · rw [List.filter_cons_of_pos hx] at h
        obtain ⟨rfl, -⟩ := List.cons_eq_cons.mp h
        exact List.find?_cons_of_pos tl hx
      · rw [List.filter_cons_of_neg hx] at h
        rw [List.find?_cons_of_neg tl hx]
        exact ih h

/-- Writing a key's price commutes with selecting the key's rows. -/
theorem keyRows_map_price (k : String) (p : Int) (l : List DealRow) :
    keyRows k (l.map fun d =>
      if d.dedupe_key == k then { d with price_cents := p } else d) =
    (keyRows k l).map fun d => { d with price_cents := p } := by
  induction l with
  | nil => rfl
  | cons d tl ih =>
      simp only [keyRows, List.map_cons] at ih ⊢
      by_cases h : (d.dedupe_key == k) = true
      · rw [if_pos h]
        rw [@List.filter_cons_of_pos DealRow (fun d => d.dedupe_key == k)
          { d with price_cents := p } _ h]
        rw [@List.filter_cons_of_pos DealRow (fun d => d.dedupe_key == k) d tl h]
        rw [List.map_cons, ih]
      · rw [if_neg h]
        rw [@List.filter_cons_of_neg DealRow (fun d => d.dedupe_key == k) d _ h]
        rw [@List.filter_cons_of_neg DealRow (fun d => d.dedupe_key == k) d tl h]
        exact ih

/-- One upsert against a store that already holds exactly one row for
the candidate's key: a history point for that row is always appended,
the row keeps its id and takes the candidate's price, and the id
counter does not move. -/
theorem upsert_step_existing (st : DealStore) (c : Candidate) (d0 : DealRow)
    (h : keyRows (dedupe_key_of c) st.deals = [d0]) :
    (upsert_deal st c).history = st.history ++ [⟨d0.id, c.price_cents⟩] ∧
    keyRows (dedupe_key_of c) (upsert_deal st c).deals =
      [{ d0 with price_cents := c.price_cents }] ∧
    (upsert_deal st c).nextDealId = st.nextDealId := by
  have hfind : (st.deals.find? fun d => d.dedupe_key == dedupe_key_of c) =
      some d0 := find?_eq_some_of_filter_singleton h
  unfold upsert_deal
  rw [hfind]
  dsimp only
  by_cases hp : d0.price_cents ≠ c.price_cents
  · rw [if_pos hp]
    refine ⟨rfl, ?_, rfl⟩
    show keyRows (dedupe_key_of c) (st.deals.map _) = _
    rw [keyRows_map_price, h]
    rfl
  · rw [if_neg hp]
    refine ⟨rfl, ?_, rfl⟩
    have hpe : d0.price_cents = c.price_cents := not_not.mp hp
    have : ({ d0 with price_cents := c.price_cents } : DealRow) = d0 := by
      cases d0
      simp_all
    rw [this]
    exact h

/-- Folding further same-key candidates over a store that already holds
exactly one row for the key: each observation appends one history point
carrying the row's id, the id counter never moves, and the row ends at
the last observed price. -/
theorem upsertAll_existing (k : String) (cs : List Candidate)
    (hall : ∀ c ∈ cs, dedupe_key_of c = k) :
    ∀ (st : DealStore) (d0 : DealRow), keyRows k st.deals = [d0] →
      (upsertAll st cs).history =
        st.history ++ cs.map (fun c => ⟨d0.id, c.price_cents⟩) ∧
      (upsertAll st cs).nextDealId = st.nextDealId ∧
      ∃ d1, keyRows k (upsertAll st cs).deals = [d1] ∧ d1.id = d0.id ∧
        d1.dedupe_key = d0.dedupe_key ∧
        d1.price_cents = (cs.map (·.price_cents)).getLastD d0.price_cents := by
  induction cs with
  | nil =>
      intro st d0 h
      exact ⟨by simp [upsertAll], rfl, d0, h, rfl, rfl, by simp⟩
  | cons c cs ih =>
      intro st d0 h
      have hkc : dedupe_key_of c = k := hall c (List.mem_cons_self c cs)
      have hstep := upsert_step_existing st c d0 (by rw [hkc]; exact h)
      obtain ⟨hh1, hk1, hn1⟩ := hstep
      rw [hkc] at hk1
      have hall' : ∀ x ∈ cs, dedupe_key_of x = k :=
        fun x hx => hall x (List.mem_cons_of_mem c hx)
      obtain ⟨hh2, hn2, d1, hk2, hid, hkey, hpr⟩ :=
        ih hall' (upsert_deal st c) { d0 with price_cents := c.price_cents } hk1
      have hrec : upsertAll st (c :: cs) = upsertAll (upsert_deal st c) cs := rfl
      rw [hrec]
      refine ⟨?_, by rw [hn2, hn1], d1, hk2, hid, hkey, ?_⟩
      · rw [hh2, hh1, List.append_assoc]
        rfl
      · rw [hpr]
        show _ = ((c :: cs).map (·.price_cents)).getLastD d0.price_cents
        rw [List.map_cons, List.getLastD_cons]

/-- C7.  From a store with no row for the key (and a fresh id counter),
upserting `n ≥ 1` candidates that share one dedupe key leaves exactly
one deal row with that key — created with the counter's id and holding
the price of the last observation — and exactly `n` price-history
points for that deal: one per observation, whether or not the price
changed.  The stored price is written only when an observation differs:
an upsert whose price equals the stored one leaves the deal rows
untouched. -/
theorem upsert_unique_deal_per_key (k : String) (cands : List Candidate)
    (st : DealStore)
    (hall : ∀ c ∈ cands, dedupe_key_of c = k)
    (hnone : keyRows k st.deals = [])
    (hhist : ∀ p ∈ st.history, p.deal_id ≠ st.nextDealId)
    (hne : cands ≠ []) :
    (upsertAll st cands).deals.countP (fun d => d.dedupe_key == k) = 1 ∧
    (∃ d, d ∈ (upsertAll st cands).deals ∧ d.dedupe_key = k ∧
      d.id = st.nextDealId ∧
      d.price_cents = (cands.map (·.price_cents)).getLastD 0) ∧
    (upsertAll st cands).history.countP
      (fun p => p.deal_id == st.nextDealId) = cands.length ∧
    (∀ st1 c d1,
      (st1.deals.find? fun d => d.dedupe_key == dedupe_key_of c) = some d1 →
      d1.price_cents = c.price_cents →
      (upsert_deal st1 c).deals = st1.deals) := by
  have hnochange : ∀ (st1 : DealStore) (c : Candidate) (d1 : DealRow),
      (st1.deals.find? fun d => d.dedupe_key == dedupe_key_of c) = some d1 →
      d1.price_cents = c.price_cents →
      (upsert_deal st1 c).deals = st1.deals := by
    intro st1 c d1 hf hpe
    unfold upsert_deal
    rw [hf]
    dsimp only
    rw [if_neg (not_not.mpr hpe)]
  obtain ⟨c, cs, rfl⟩ : ∃ c cs, cands = c :: cs := by
    cases cands with
    | nil => exact absurd rfl hne
    | cons c cs => exact ⟨c, cs, rfl⟩
  have hkc : dedupe_key_of c = k := hall c (List.mem_cons_self c cs)
  have hfind : (st.deals.find? fun d => d.dedupe_key == dedupe_key_of c) =
      none := by
    rw [List.find?_eq_none]
    intro d hd
    rw [hkc]
    exact List.filter_eq_nil_iff.mp hnone d hd
  have hstep : upsert_deal st c =
      { deals := st.deals ++ [⟨st.nextDealId, dedupe_key_of c, c.price_cents⟩]
        history := st.history ++ [⟨st.nextDealId, c.price_cents⟩]
        nextDealId := st.nextDealId + 1 } := by
    unfold upsert_deal
    rw [hfind]
  have hnewPred : ((⟨st.nextDealId, dedupe_key_of c, c.price_cents⟩ :
      DealRow).dedupe_key == k) = true := by
    simp [hkc]
  have hk1 : keyRows k (upsert_deal st c).deals =
      [⟨st.nextDealId, dedupe_key_of c, c.price_cents⟩] := by
    rw [hstep]
    show List.filter _ (st.deals ++ _) = _
    rw [List.filter_append]
    rw [show List.filter (fun d => d.dedupe_key == k) st.deals = [] from hnone]
    simp [List.filter_cons, hnewPred]
  have hall' : ∀ x ∈ cs, dedupe_key_of x = k :=
    fun x hx => hall x (List.mem_cons_of_mem c hx)
  obtain ⟨hh2, hn2, d1, hk2, hid, hkey, hpr⟩ :=
    upsertAll_existing k cs hall' (upsert_deal st c)
      ⟨st.nextDealId, dedupe_key_of c, c.price_cents⟩ hk1
  have hrec : upsertAll st (c :: cs) = upsertAll (upsert_deal st c) cs := rfl
  rw [hrec]
  refine ⟨?_, ⟨d1, ?_, ?_, hid, ?_⟩, ?_, hnochange⟩
  · rw [List.countP_eq_length_filter]
    show (keyRows k _).length = 1
    rw [hk2]
    rfl
  · have : d1 ∈ keyRows k (upsertAll (upsert_deal st c) cs).deals := by
      rw [hk2]; exact List.mem_singleton.mpr rfl
    exact List.mem_of_mem_filter this
  · rw [hkey]
    exact hkc
  · rw [hpr]
    show _ = ((c :: cs).map (·.price_cents)).getLastD 0
    rw [List.map_cons, List.getLastD_cons]
  · rw [hh2, hstep]
    show ((st.history ++ ([⟨st.nextDealId, c.price_cents⟩] :
        List PricePointRow)) ++
      cs.map fun x => (⟨st.nextDealId, x.price_cents⟩ : PricePointRow)).countP
        (fun p => p.deal_id == st.nextDealId) = (c :: cs).length
    rw [List.countP_append, List.countP_append]
    have h0 : st.history.countP (fun p => p.deal_id == st.nextDealId) = 0 := by
      rw [List.countP_eq_zero]
      intro p hpmem hbeq
      exact hhist p hpmem (by simpa using hbeq)
    have h1 : ([⟨st.nextDealId, c.price_cents⟩] :
        List PricePointRow).countP (fun p => p.deal_id == st.nextDealId) = 1 := by
      simp [List.countP_cons]
    have h2 : (cs.map fun x =>
        (⟨st.nextDealId, x.price_cents⟩ : PricePointRow)).countP
          (fun p => p.deal_id == st.nextDealId) = cs.length := by
      rw [List.countP_map]
      exact List.countP_eq_length.mpr fun a _ => by simp
    rw [h0, h1, h2]
    show 0 + 1 + cs.length = cs.length + 1
    omega

/-- Witness for C7: two same-key observations into the empty store
leave two history points for the created deal (id 0). -/
theorem upsert_unique_deal_per_key_witness :
    (upsertAll emptyStore c7Cands).history.countP
      (fun p => p.deal_id == 0) = 2 :=
  (upsert_unique_deal_per_key c7Key c7Cands emptyStore (by decide) rfl
    (by simp [emptyStore]) (by decide)).2.2.1

end TripSignal
